import Mathlib

/-!
# Verification of the reredis core against its specification

This development gives a shallow embedding of the reredis server
(github.com/121watts/reredis) in Lean 4 and settles the specification's
claims against it.  Keys, values and wire data are modelled as byte
strings (`List Nat`, each element `< 256`), matching Go's `string` /
`[]byte`.  Each definition below is a direct translation of the Go
function named in its doc comment.
-/

set_option maxRecDepth 4000

/-- A Go byte string (`string` / `[]byte`): a list of byte values. -/
abbrev Str := List Nat

deriving instance DecidableEq for Except

namespace Reredis

/-! ## Slot hasher (`internal/cluster/hashslot.go`) -/

/-- One bit step of the reflected CRC32 division: shift right, xor the
IEEE polynomial `0xEDB88320` when the low bit was set.  This is the
table-free form of the table used by Go's `hash/crc32` for
`crc32.IEEE`. -/
def crc32Bit (c : Nat) : Nat :=
  if c % 2 = 1 then (c / 2) ^^^ 0xEDB88320 else c / 2

/-- Incorporate one input byte into the running CRC (reflected IEEE
CRC32, as computed by `crc32.ChecksumIEEE` byte by byte). -/
def crc32Byte (c b : Nat) : Nat :=
  crc32Bit (crc32Bit (crc32Bit (crc32Bit
    (crc32Bit (crc32Bit (crc32Bit (crc32Bit (c ^^^ b))))))))

/-- `crc32.ChecksumIEEE`: initial value `0xFFFFFFFF`, fold the bytes,
final complement. -/
def crc32 (bytes : Str) : Nat :=
  (bytes.foldl crc32Byte 0xFFFFFFFF) ^^^ 0xFFFFFFFF

/-- `cluster.SLOT_RANGE`: the total number of hash slots. -/
def SLOT_RANGE : Nat := 16384

/-- The hash-tag extraction inside `cluster.CalculateSlot`
(hashslot.go lines 23-28): if the key contains `{` (byte 123) at the
first index `start` and `}` (byte 125) occurs in `key[start+1:]` at
relative index `end`, the hashed text is `key[start+1 : start+1+end]`;
otherwise the whole key. -/
def hashKeyOf (key : Str) : Str :=
  match key.findIdx? (· = 123) with
  | none => key
  | some s =>
    match (key.drop (s+1)).findIdx? (· = 125) with
    | none => key
    | some e => (key.drop (s+1)).take e

/-- `cluster.CalculateSlot`: CRC32 of the (possibly hash-tag reduced)
key, modulo `SLOT_RANGE`. -/
def CalculateSlot (key : Str) : Nat :=
  crc32 (hashKeyOf key) % SLOT_RANGE

/-! ## KV store (`internal/store/store.go`)

The Go `Store` keeps a doubly-linked recency list `lruList`, a map
`data` from key to list element, a TTL-membership map `withTTL` and a
bound `maxSize`.  Every code path that touches `lruList` updates `data`
in lockstep (and conversely), so the pair is modelled as a single list
of items, front = most recently used; the map lookup `s.data[k]` is
`find?` on that list.  `withTTL` is modelled as a list of keys with
set semantics.  Wall-clock instants are `Nat`; `time.Now()` is passed
in explicitly as `now`. -/

/-- `store.cacheItem`: key, value, optional absolute expiration
(`nil` = no expiration). -/
structure CacheItem where
  key : Str
  value : Str
  expiration : Option Nat
deriving Repr, DecidableEq

/-- The `store.Store` state (the parts touched by the claims:
`lruList`+`data` fused as one list, `withTTL`, `maxSize`). -/
structure Store where
  lruList : List CacheItem
  withTTL : List Str
  maxSize : Nat
deriving Repr, DecidableEq

namespace Store

/-- The map lookup `s.data[key]` (returns the list element holding the
key, if any). -/
def dataLookup (s : Store) (k : Str) : Option CacheItem :=
  s.lruList.find? (fun it => it.key = k)

/-- Key set of the store, in recency order. -/
def keys (s : Store) : List Str := s.lruList.map (·.key)

/-- `delete(s.withTTL, key)`. -/
def ttlErase (l : List Str) (k : Str) : List Str := l.filter (· ≠ k)

/-- `s.withTTL[key] = true` (set insertion). -/
def ttlInsert (l : List Str) (k : Str) : List Str :=
  if k ∈ l then l else k :: l

/-- `Store.evictLRU` (store.go lines 90-99): remove the back element of
the list and delete its key from `data` and `withTTL`. -/
def evictLRU (s : Store) : Store :=
  match s.lruList.getLast? with
  | none => s
  | some item =>
    { s with lruList := s.lruList.dropLast
             withTTL := ttlErase s.withTTL item.key }

/-- `Store.setInternal` (store.go lines 52-85).  Existing key: update
value and expiration in place and move to the front, then set or clear
TTL membership.  New key: push a fresh item at the front, record TTL
membership when an expiration is given, and evict the LRU tail if the
list now exceeds `maxSize`. -/
def setInternal (s : Store) (key value : Str) (expiration : Option Nat) :
    Store :=
  match s.lruList.find? (fun it => it.key = key) with
  | some _ =>
    { s with
      lruList := ⟨key, value, expiration⟩ ::
        s.lruList.filter (fun it => it.key ≠ key)
      withTTL :=
        if expiration.isSome then ttlInsert s.withTTL key
        else ttlErase s.withTTL key }
  | none =>
    let s1 : Store :=
      { s with
        lruList := ⟨key, value, expiration⟩ :: s.lruList
        withTTL :=
          if expiration.isSome then ttlInsert s.withTTL key
          else s.withTTL }
    if s1.lruList.length > s.maxSize then s1.evictLRU else s1

/-- `Store.Set`: upsert without expiration. -/
def set (s : Store) (key value : Str) : Store :=
  s.setInternal key value none

/-- `Store.SetWithTTL`: upsert with expiration `now + ttl`. -/
def setWithTTL (s : Store) (key value : Str) (now ttl : Nat) : Store :=
  s.setInternal key value (some (now + ttl))

/-- `Store.Get` (store.go lines 137-160).  Missing key: `("", false)`.
Present and expired (`expiration.Before(now)`): the entry is deleted
from `data` and the list — note the code does NOT touch `withTTL`
here — and `("", false)` is returned.  Otherwise the element moves to
the front and the value is returned. -/
def get (s : Store) (now : Nat) (key : Str) :
    Option Str × Store :=
  match s.lruList.find? (fun it => it.key = key) with
  | none => (none, s)
  | some item =>
    match item.expiration with
    | some t =>
      if t < now then
        (none, { s with lruList := s.lruList.filter (fun it => it.key ≠ key) })
      else
        (some item.value,
         { s with lruList := item :: s.lruList.filter (fun it => it.key ≠ key) })
    | none =>
      (some item.value,
       { s with lruList := item :: s.lruList.filter (fun it => it.key ≠ key) })

/-- `Store.Delete` (store.go lines 165-177): remove the entry and its
TTL membership if present; report whether a removal occurred. -/
def delete (s : Store) (key : Str) : Bool × Store :=
  match s.lruList.find? (fun it => it.key = key) with
  | none => (false, s)
  | some _ =>
    (true,
     { s with lruList := s.lruList.filter (fun it => it.key ≠ key)
              withTTL := ttlErase s.withTTL key })

/-- `Store.GetAll`: snapshot of all key/value pairs. -/
def getAll (s : Store) : List (Str × Str) :=
  s.lruList.map (fun it => (it.key, it.value))

/-- `Store.GetAllKeys` (store.go lines 120-132): all keys, ascending by
the byte order `sort.Strings` uses (modelled by `insertionSort (· ≤ ·)`
over the lexicographic order on byte strings). -/
def getAllKeys (s : Store) : List Str :=
  (s.lruList.map (·.key)).insertionSort (· ≤ ·)

/-- `store.NewStore` (store.go lines 182-193): empty state with the
default `maxSize` of 1000. -/
def newStore : Store := { lruList := [], withTTL := [], maxSize := 1000 }

/-- One sampled key of the active-expiration inner loop
(`Store.cleanup`, store.go lines 220-244): look the key up in `data`;
if the lookup is nil, `continue` — the `withTTL` membership is left in
place; if the entry carries an expiration in the past, delete it from
`data`, `withTTL` and the list. -/
def cleanupStep (now : Nat) (s : Store) (key : Str) : Store :=
  match s.lruList.find? (fun it => it.key = key) with
  | none => s
  | some item =>
    match item.expiration with
    | none => s
    | some t =>
      if t < now then
        { s with lruList := s.lruList.filter (fun it => it.key ≠ key)
                 withTTL := ttlErase s.withTTL key }
      else s

/-- One pass of the sampling loop in `Store.cleanup`: the randomly drawn
sample keys (indices into the snapshot of `withTTL`, possibly
repeating, possibly cut short by the 25 ms budget) are processed in
order.  The draw and the cut are abstracted by passing the processed
sample list itself. -/
def cleanupPass (s : Store) (now : Nat) (samples : List Str) : Store :=
  samples.foldl (cleanupStep now) s

end Store

/-! ## WAL codec (`internal/wal/encoder.go`, `internal/wal/reader.go`)

The encoder emits RESP array framing.  The reader tokenizes the byte
stream with `bufio.Scanner` under its default `bufio.ScanLines` split
function: a token runs up to (and excludes) the first `\n`, and one
trailing `\r` is stripped from it; at end of input a non-empty
remainder is returned as a final token. -/

namespace Wal

/-- Fuel-driven core of decimal rendering (structural recursion so
that concrete values reduce in the kernel).  With `n < fuel` this
produces the ASCII decimal digits of `n`, most significant first. -/
def natDigitsGo : Nat → Nat → Str
  | _, 0 => []
  | n, fuel + 1 =>
    if n < 10 then [48 + n] else natDigitsGo (n / 10) fuel ++ [48 + n % 10]

/-- `strconv.Itoa` for a natural number: ASCII decimal digits,
most significant first. -/
def natDigits (n : Nat) : Str := natDigitsGo n (n + 1)

/-- Numeric value of a list of ASCII digit bytes, as accumulated by a
decimal parser. -/
def digitsVal (l : Str) : Nat :=
  l.foldl (fun acc d => acc * 10 + (d - 48)) 0

/-- ASCII digit test. -/
def isDigitByte (b : Nat) : Bool := 48 ≤ b ∧ b ≤ 57

/-- `strconv.Atoi`: optional sign, then a non-empty run of decimal
digits; anything else is an error (`none`).  (Fixed-width overflow is
not modelled.) -/
def atoi (s : Str) : Option Int :=
  match s with
  | [] => none
  | c :: rest =>
    let neg : Bool := c = 45
    let digits := if c = 45 ∨ c = 43 then rest else s
    if digits = [] ∨ ¬ digits.all isDigitByte then none
    else some ((if neg then -1 else 1) * (digitsVal digits : Int))

/-- `wal.EncodeBulkString`: `$<len>\r\n<bytes>\r\n`. -/
def encodeBulkString (s : Str) : Str :=
  36 :: natDigits s.length ++ [13, 10] ++ s ++ [13, 10]

/-- `wal.EncodeArray`: `*<count>\r\n` followed by the encoded bulk
strings. -/
def encodeArray (cmd : List Str) : Str :=
  42 :: natDigits cmd.length ++ [13, 10] ++ (cmd.map encodeBulkString).flatten

/-- `bufio.ScanLines`' `dropCR`: strip one trailing `\r` from a token. -/
def dropCR (l : Str) : Str :=
  if l.getLast? = some 13 then l.dropLast else l

/-- One `scanner.Scan()` / `scanner.Text()` step under
`bufio.ScanLines`: `none` when the input is exhausted; otherwise the
token up to the first `\n` (exclusive, `\r`-stripped) and the rest of
the stream, or the whole `\r`-stripped remainder at EOF. -/
def scanLine (input : Str) : Option (Str × Str) :=
  if input.isEmpty then none
  else
    match input.findIdx? (· = 10) with
    | some i => some (dropCR (input.take i), input.drop (i + 1))
    | none => some (dropCR input, [])

/-- The reader's error outcomes: `eof` is the clean `io.EOF` at a
record boundary; the rest mirror the `fmt.Errorf` cases of
`parseArray` / `parseBulkString` (`negativeCount` stands for the Go
panic of `make([]string, count)` on a negative count). -/
inductive Err where
  | eof
  | expectedArrayHeader
  | invalidArrayCount
  | negativeCount
  | unexpectedEofBulkHeader
  | expectedBulkHeader
  | invalidBulkLength
  | unexpectedEofBulkData
  | lengthMismatch
deriving Repr, DecidableEq

/-- `Reader.parseBulkString` (reader.go lines 78-104): scan the
`$<len>` header line, parse the length, scan the data line, and insist
the token's length equals the declared length. -/
def parseBulkString (input : Str) : Except Err (Str × Str) :=
  match scanLine input with
  | none => .error .unexpectedEofBulkHeader
  | some (line, rest) =>
    match line with
    | 36 :: lenStr =>
      match atoi lenStr with
      | none => .error .invalidBulkLength
      | some len =>
        match scanLine rest with
        | none => .error .unexpectedEofBulkData
        | some (data, rest2) =>
          if (data.length : Int) = len then .ok (data, rest2)
          else .error .lengthMismatch
    | _ => .error .expectedBulkHeader

/-- The `for i := 0; i < count; i++` loop of `Reader.parseArray`. -/
def parseBulks : Nat → Str → Except Err (List Str × Str)
  | 0, input => .ok ([], input)
  | n + 1, input =>
    match parseBulkString input with
    | .error e => .error e
    | .ok (s, rest) =>
      match parseBulks n rest with
      | .error e => .error e
      | .ok (ss, rest2) => .ok (s :: ss, rest2)

/-- `Reader.parseArray` (reader.go lines 44-76): scan the `*<count>`
header and read `count` bulk strings.  Returns the decoded record and
the unconsumed remainder of the stream. -/
def parseArray (input : Str) : Except Err (List Str × Str) :=
  match scanLine input with
  | none => .error .eof
  | some (line, rest) =>
    match line with
    | 42 :: countStr =>
      match atoi countStr with
      | none => .error .invalidArrayCount
      | some count =>
        if count < 0 then .error .negativeCount
        else parseBulks count.toNat rest
    | _ => .error .expectedArrayHeader

end Wal

/-! ## Cluster manager (`internal/cluster/manager.go`, `node.go`)

The `Nodes` map is modelled as a list of nodes (map iteration order
becomes list order; map keys — the node ids — are distinct).  `m.Node`
(the self node) is a pointer into the map; the model keeps a copy and
every mutation updates both, exactly as the Go methods do. -/

/-- `cluster.Slot`: an inclusive slot interval, `{-1,-1}` when
unassigned.  The Go field `End` is called `stop` here (`end` is a Lean
keyword). -/
structure Slot where
  start : Int
  stop : Int
deriving Repr, DecidableEq

/-- `cluster.Node`. -/
structure Node where
  id : Str
  host : Str
  port : Str
  slot : Slot
  keyCount : Int
  byteSize : Int
deriving Repr, DecidableEq

/-- `cluster.Manager`: the node registry plus the self node. -/
structure Manager where
  nodes : List Node
  self : Node
deriving Repr, DecidableEq

namespace Manager

/-- `cluster.NewManager`: a single self node with the unassigned
sentinel slot and a freshly generated id (passed in, since the id is
20 random bytes in hex). -/
def newManager (selfId host port : Str) : Manager :=
  let n : Node := ⟨selfId, host, port, ⟨-1, -1⟩, 0, 0⟩
  { nodes := [n], self := n }

/-- The slot `InitializeCluster` assigns to the node at position `i`
of the lexicographically sorted id list (manager.go lines 74-84):
`start = i * slotsPerNode`, `end = start + slotsPerNode - 1`, except
the last node whose `end` is forced to `SLOT_RANGE - 1`. -/
def assignedSlot (i total : Nat) : Slot :=
  let spn : Int := 16384 / (total : Int)
  let start : Int := (i : Int) * spn
  ⟨start, if i = total - 1 then 16383 else start + spn - 1⟩

/-- The slot write of the `for i, nodeID := range nodeIDs` loop in
`InitializeCluster`, per node: a node whose id sits at position `i` of
the sorted id list receives `assignedSlot i N`. -/
def assignNode (sortedIds : List Str) (n : Node) : Node :=
  match sortedIds.findIdx? (· = n.id) with
  | none => n
  | some i => { n with slot := assignedSlot i sortedIds.length }

/-- `Manager.InitializeCluster` (manager.go lines 62-85): sort the node
ids, divide the slot space evenly, and write each node's slot (the self
node is one of the map entries, so it is updated alongside). -/
def initializeCluster (m : Manager) : Manager :=
  let sortedIds := (m.nodes.map (·.id)).insertionSort (· ≤ ·)
  { nodes := m.nodes.map (assignNode sortedIds),
    self := assignNode sortedIds m.self }

/-- `Manager.AddNode` (manager.go lines 43-57): register a node with a
fresh id (passed in) and the unassigned sentinel; initialize the
cluster when the registry reaches exactly 3 nodes. -/
def addNode (m : Manager) (freshId host port : Str) : Manager :=
  let m' : Manager :=
    { m with nodes := m.nodes ++ [⟨freshId, host, port, ⟨-1, -1⟩, 0, 0⟩] }
  if m'.nodes.length = 3 then m'.initializeCluster else m'

/-- `Manager.GetNodeForSlots` (manager.go lines 90-115): below 3 nodes
return self; otherwise the first registered node whose interval
contains the slot, falling back to self. -/
def getNodeForSlots (m : Manager) (slot : Int) : Node :=
  if m.nodes.length < 3 then m.self
  else
    match m.nodes.find? (fun n => n.slot.start ≤ slot ∧ slot ≤ n.slot.stop) with
    | some n => n
    | none => m.self

/-- `Manager.IncrementKeyCount`: bump the self node's counter (in the
copy and in the registry entry). -/
def incrementKeyCount (m : Manager) : Manager :=
  { nodes := m.nodes.map (fun n =>
      if n.id = m.self.id then { n with keyCount := n.keyCount + 1 } else n)
    self := { m.self with keyCount := m.self.keyCount + 1 } }

/-- `Manager.DecrementKeyCount`: saturating decrement of the self
node's counter. -/
def decrementKeyCount (m : Manager) : Manager :=
  if m.self.keyCount > 0 then
    { nodes := m.nodes.map (fun n =>
        if n.id = m.self.id ∧ n.keyCount > 0 then
          { n with keyCount := n.keyCount - 1 } else n)
      self := { m.self with keyCount := m.self.keyCount - 1 } }
  else m

/-- `Manager.AddByteSize`. -/
def addByteSize (m : Manager) (keySize valueSize : Nat) : Manager :=
  let bytes : Int := (keySize : Int) + valueSize
  { nodes := m.nodes.map (fun n =>
      if n.id = m.self.id then { n with byteSize := n.byteSize + bytes } else n)
    self := { m.self with byteSize := m.self.byteSize + bytes } }

/-- `Manager.SubtractByteSize`: saturating (clamps at zero). -/
def subtractByteSize (m : Manager) (keySize valueSize : Nat) : Manager :=
  let bytes : Int := (keySize : Int) + valueSize
  let sub : Int → Int := fun b => if bytes ≤ b then b - bytes else 0
  { nodes := m.nodes.map (fun n =>
      if n.id = m.self.id then { n with byteSize := sub n.byteSize } else n)
    self := { m.self with byteSize := sub m.self.byteSize } }

end Manager

/-! ## Command handler (`internal/server/handler.go`) and TCP command
dispatch (the unnamed server source, `part_021`)

The handler owns the store, the WAL writer, the cluster manager and
the broadcast hub.  State threading is explicit: `SrvState` carries
the store, the optional cluster manager, the list of WAL records
appended so far and the current instant.  Whether the underlying
`file.Write`/`file.Sync` of `walWriter.WriteCommand` succeeds is an
environment fact and is passed in as `walOk`.  Replies written to the
connection and messages handed to the hub are returned as lists. -/

/-- The verb byte strings. -/
def SETv : Str := [83, 69, 84]

/-- `"GET"`. -/
def GETv : Str := [71, 69, 84]

/-- `"DEL"`. -/
def DELv : Str := [68, 69, 76]

/-- `server.OperationResult`. -/
structure OperationResult where
  key : Str
  value : Str
  action : String
  needsStats : Bool
deriving Repr, DecidableEq

/-- `observer.ClusterNodeStats` (one row of a cluster-stats
broadcast). -/
structure ClusterNodeStats where
  id : Str
  host : Str
  port : Str
  slotStart : Int
  slotEnd : Int
  keyCount : Int
  byteSize : Int
deriving Repr, DecidableEq

/-- `observer.ClusterStatsMessage`. -/
structure ClusterStatsMessage where
  nodes : List ClusterNodeStats
  currentNodeId : Str
  totalSlots : Nat
  clusterSize : Nat
  totalKeys : Int
deriving Repr, DecidableEq

/-- A message handed to the broadcast hub: either an update
(`hub.BroadcastMessage` with action/key/value) or a cluster-stats
snapshot (`hub.BroadcastClusterStats`). -/
inductive Broadcast where
  | update (action : String) (key value : Str)
  | clusterStats (msg : ClusterStatsMessage)
deriving Repr, DecidableEq

/-- A reply written to the TCP connection. -/
inductive Reply where
  | ok
  | err (msg : String)
  | moved (slot : Int) (host port : Str)
  | intReply (n : Nat)
  | bulk (v : Str)
deriving Repr, DecidableEq

/-- The state threaded through the command path. -/
structure SrvState where
  store : Store
  cm : Option Manager
  wal : List (List Str)
  now : Nat
deriving Repr, DecidableEq

/-- `Store.GetTotalByteSize` (store.go lines 264-277). -/
def Store.getTotalByteSize (s : Store) : Nat :=
  (s.lruList.map (fun it => it.key.length + it.value.length)).sum

/-- `server.broadcastClusterStats` (part_021 lines 267-308): one stats
row per registered node — live store numbers for the self node, cached
counters for the others — plus the totals. -/
def clusterStatsOf (s : Store) (m : Manager) : ClusterStatsMessage :=
  let rows := m.nodes.map (fun n =>
    let kc : Int := if n.id = m.self.id then (s.getAll.length : Int) else n.keyCount
    let bs : Int := if n.id = m.self.id then (s.getTotalByteSize : Int) else n.byteSize
    ⟨n.id, n.host, n.port, n.slot.start, n.slot.stop, kc, bs⟩)
  { nodes := rows, currentNodeId := m.self.id, totalSlots := 16384,
    clusterSize := m.nodes.length, totalKeys := (rows.map (·.keyCount)).sum }

/-- `CommandHandler.HandleSet` (handler.go lines 39-78): arity check,
WAL append (aborting on failure), pre-read of the old value (a real
`store.Get`, with its move-to-front / lazy-expiry effects), store
write, then cluster statistics. -/
def handleSet (st : SrvState) (walOk : Bool) (parts : List Str) :
    Except String (OperationResult × SrvState) :=
  if parts.length ≠ 3 then .error "wrong number of arguments for 'SET'"
  else
    let k := parts.getD 1 []
    let v := parts.getD 2 []
    if ¬ walOk then .error "failed to write to WAL"
    else
      let (oldValue, store1) := st.store.get st.now k
      let existsBefore := oldValue.isSome
      let store2 := store1.set k v
      let cm' := st.cm.map (fun m =>
        if ¬ existsBefore then
          (m.incrementKeyCount).addByteSize k.length v.length
        else
          (m.subtractByteSize k.length (oldValue.getD []).length).addByteSize
            k.length v.length)
      .ok ({ key := k, value := v, action := "set",
             needsStats := match st.cm with
               | none => false
               | some m => m.nodes.length > 1 },
           { st with store := store2, cm := cm', wal := st.wal ++ [parts] })

/-- `CommandHandler.HandleGet` (handler.go lines 80-95): read-only up
to the store's own `Get` side effects (LRU touch, lazy expiry). -/
def handleGet (st : SrvState) (parts : List Str) :
    Except String (Str × SrvState) :=
  if parts.length ≠ 2 then .error "wrong number of arguments for 'GET'"
  else
    let k := parts.getD 1 []
    let (v, store1) := st.store.get st.now k
    match v with
    | none => .error "key not found"
    | some v => .ok (v, { st with store := store1 })

/-- `CommandHandler.HandleDelete` (handler.go lines 97-135): arity
check, WAL append (aborting on failure), pre-read, delete, statistics.
Returns the `deleted` flag and the optional operation result. -/
def handleDelete (st : SrvState) (walOk : Bool) (parts : List Str) :
    Except String (Bool × Option OperationResult × SrvState) :=
  if parts.length ≠ 2 then .error "wrong number of arguments for 'DEL'"
  else
    let k := parts.getD 1 []
    if ¬ walOk then .error "failed to write to WAL"
    else
      let (oldValue, store1) := st.store.get st.now k
      let existed := oldValue.isSome
      let (ok, store2) := store1.delete k
      let st1 := { st with store := store2, wal := st.wal ++ [parts] }
      if ok then
        let cm' := st1.cm.map (fun m =>
          let m1 := m.decrementKeyCount
          if existed then
            m1.subtractByteSize k.length (oldValue.getD []).length
          else m1)
        .ok (true,
             some { key := k, value := [], action := "del",
                    needsStats := match st.cm with
                      | none => false
                      | some m => m.nodes.length > 1 },
             { st1 with cm := cm' })
      else .ok (false, none, st1)

/-- `CommandHandler.checkSlotOwnership` (handler.go lines 138-165):
empty string means "we own it / no routing"; otherwise the key is
returned for a MOVED reply.  (`GetNodeForSlots` never returns nil for
a non-nil manager, so the inner nil check always passes.) -/
def checkSlotOwnership (st : SrvState) (key : Str) : Str :=
  match st.cm with
  | none => []
  | some m =>
    if m.nodes.length < 3 then []
    else
      let slot : Int := CalculateSlot key
      if slot < m.self.slot.start ∨ slot > m.self.slot.stop then key
      else []

/-- `server.handleRedirect` (part_021 lines 251-263): write the MOVED
line with the slot and the owning node's host:port.  With a nil
manager nothing is written. -/
def handleRedirect (st : SrvState) (key : Str) : List Reply :=
  match st.cm with
  | none => []
  | some m =>
    let slot : Int := CalculateSlot key
    let owner := m.getNodeForSlots slot
    [.moved slot owner.host owner.port]

/-- `server.handleSetCommand` (part_021 lines 182-204): reply `-ERR`
on failure; otherwise `+OK`, broadcast the update and, when the
cluster has more than one node, a stats snapshot. -/
def handleSetCommand (st : SrvState) (walOk : Bool) (parts : List Str) :
    SrvState × List Broadcast × List Reply :=
  match handleSet st walOk parts with
  | .error e => (st, [], [.err e])
  | .ok (result, st') =>
    (st',
     Broadcast.update result.action result.key result.value ::
       (if result.needsStats then
          match st'.cm with
          | some m => [Broadcast.clusterStats (clusterStatsOf st'.store m)]
          | none => []
        else []),
     [.ok])

/-- `server.handleGetCommand` (part_021 lines 206-213). -/
def handleGetCommand (st : SrvState) (parts : List Str) :
    SrvState × List Broadcast × List Reply :=
  match handleGet st parts with
  | .error e => (st, [], [.err e])
  | .ok (v, st') => (st', [], [.bulk v])

/-- `server.handleDeleteCommand` (part_021 lines 215-240). -/
def handleDeleteCommand (st : SrvState) (walOk : Bool) (parts : List Str) :
    SrvState × List Broadcast × List Reply :=
  match handleDelete st walOk parts with
  | .error e => (st, [], [.err e])
  | .ok (deleted, result, st') =>
    (st',
     (match result with
      | none => []
      | some r =>
        Broadcast.update r.action r.key r.value ::
          (if r.needsStats then
             match st'.cm with
             | some m => [Broadcast.clusterStats (clusterStatsOf st'.store m)]
             | none => []
           else [])),
     [if deleted then .intReply 1 else .intReply 0])

/-- ASCII upper-casing, as `strings.ToUpper` acts on ASCII bytes. -/
def toUpperAscii (s : Str) : Str :=
  s.map (fun b => if 97 ≤ b ∧ b ≤ 122 then b - 32 else b)

/-- `CommandHandler.HandleCluster` plus `handleClusterMeet`
(handler.go lines 167-203).  The fresh node id is passed in (it is 20
random bytes in hex in Go). -/
def handleCluster (st : SrvState) (freshId : Str) (parts : List Str) :
    Except String SrvState :=
  if parts.length < 2 then .error "wrong number of arguments for 'CLUSTER'"
  else if toUpperAscii (parts.getD 1 []) = [77, 69, 69, 84] then -- "MEET"
    if parts.length ≠ 4 then .error "wrong number of arguments for 'CLUSTER MEET'"
    else
      match st.cm with
      | none => .ok st -- Go would dereference a nil manager here; not reachable from main
      | some m =>
        .ok { st with
              cm := some (m.addNode freshId (parts.getD 2 []) (parts.getD 3 [])) }
  else if toUpperAscii (parts.getD 1 []) = [78, 79, 68, 69, 83] then -- "NODES"
    .error "TODO: cluster nodes not implemented"
  else if toUpperAscii (parts.getD 1 []) = [73, 78, 70, 79] then -- "INFO"
    .error "TODO: cluster info not implemented"
  else .error "unknown cluster subcommand"

/-- `server.handleClusterCommand` (part_021 lines 242-249). -/
def handleClusterCommand (st : SrvState) (freshId : Str) (parts : List Str) :
    SrvState × List Broadcast × List Reply :=
  match handleCluster st freshId parts with
  | .error e => (st, [], [.err e])
  | .ok st' => (st', [], [.ok])

/-- `server.isKeyBasedCommand` (part_021 lines 87-94). -/
def isKeyBasedCommand (cmd : Str) : Bool :=
  cmd = SETv ∨ cmd = GETv ∨ cmd = DELv

/-- The `switch cmd` dispatch of `server.handleCommand`. -/
def dispatchCommand (st : SrvState) (walOk : Bool) (freshId : Str)
    (cmd : Str) (parts : List Str) : SrvState × List Broadcast × List Reply :=
  if cmd = SETv then handleSetCommand st walOk parts
  else if cmd = GETv then handleGetCommand st parts
  else if cmd = DELv then handleDeleteCommand st walOk parts
  else if cmd = [67, 76, 85, 83, 84, 69, 82] then -- "CLUSTER"
    handleClusterCommand st freshId parts
  else (st, [], [.err "unknown command"])

/-- `server.handleCommand` (part_021 lines 63-85): for a key-based
command with at least two tokens, consult slot ownership first and
short-circuit into a MOVED redirect; otherwise dispatch on the verb. -/
def handleCommand (st : SrvState) (walOk : Bool) (freshId : Str)
    (cmd : Str) (parts : List Str) : SrvState × List Broadcast × List Reply :=
  if isKeyBasedCommand cmd ∧ parts.length ≥ 2 then
    let key := parts.getD 1 []
    let redirectKey := checkSlotOwnership st key
    if redirectKey ≠ [] then (st, [], handleRedirect st redirectKey)
    else dispatchCommand st walOk freshId cmd parts
  else dispatchCommand st walOk freshId cmd parts

/-! ## Startup (`cmd/reredis/main.go`, `server.StartWithListener`) -/

/-- The startup sequence of `cmd/reredis/main.go` (lines 21-51)
together with `server.StartWithListener` (part_021 lines 32-58), as a
function from the pre-existing WAL journal records to the store state
at the moment the TCP listener begins accepting connections: `main`
creates a fresh store with `store.NewStore()`, starts the hub and both
servers, and `StartWithListener` opens a WAL *writer* over
`reredis.wal` and immediately enters the accept loop.  No code path
constructs a `wal.Reader` or calls `ReadEntry` (`wal.NewReader` has no
callers outside the WAL package's own test, and the repository README
lists "Recovery system to replay WAL on startup" as an unimplemented
item), so the journal contents never flow into the store. -/
def startupStore (_walRecords : List (List Str)) : Store := Store.newStore

/-- Modelled from the spec: the startup replay the specification
describes ("the Command Core opens the WAL Reader and applies each
record via `store.set`/`store.delete` directly") — one journal
record applied to the store. -/
def applyRecordSpec (s : Store) (r : List Str) : Store :=
  match r with
  | [c, k, v] => if c = SETv then s.set k v else s
  | [c, k] => if c = DELv then (s.delete k).2 else s
  | _ => s

/-- Modelled from the spec: replaying the whole journal in append
order into an empty store. -/
def replayStoreSpec (records : List (List Str)) : Store :=
  records.foldl applyRecordSpec Store.newStore

/-! ## Cursor pagination (`internal/query/pagination.go`) -/

/-- `query.PaginationResult`. -/
structure PaginationResult where
  keys : List Str
  nextCursor : Str
  hasMore : Bool
deriving Repr, DecidableEq

/-- `sort.SearchStrings(a, x)`: the smallest index `i` with
`a[i] ≥ x`.  On a sorted slice (the only way the code calls it) this
equals the length of the maximal prefix of elements `< x`. -/
def searchStrings (a : List Str) (x : Str) : Nat :=
  (a.takeWhile (fun k => k < x)).length

/-- `query.HandleCursorPagination` (pagination.go lines 15-44): fetch
the sorted key list (and sort it again), position the start index
strictly after the cursor's lower-bound position, and slice out up to
`limit` keys. -/
def handleCursorPagination (s : Store) (cursor : Str) (limit : Nat) :
    PaginationResult :=
  let allKeys := (s.getAllKeys).insertionSort (· ≤ ·)
  let cidx := if cursor = [] then 0 else searchStrings allKeys cursor + 1
  let keys := (allKeys.drop cidx).take limit
  let endIdx := cidx + limit
  let hasMore := endIdx < allKeys.length
  let nextCursor := if hasMore then allKeys.getD (endIdx - 1) [] else []
  { keys := keys, nextCursor := nextCursor, hasMore := hasMore }

/-! ## Theorems -/

/-- Key `"k"` (byte 107), value `"v"` (byte 118): concretes used by
several witnesses. -/
def kKey : Str := [107]

/-- The value byte string `"v"`. -/
def vVal : Str := [118]

/-- C1 (counterexample). The claim says the store state at the moment
the server begins accepting traffic equals the journal replayed into an
empty store.  For the one-record journal `[["SET","k","v"]]` the
startup sequence of `main.go`/`StartWithListener` yields the empty
store, not the replayed store: the program performs no WAL replay. -/
theorem c1_startup_no_replay_counterexample :
    startupStore [[SETv, kKey, vVal]] ≠ replayStoreSpec [[SETv, kKey, vVal]] := by
  decide

/-- C1 (amended). At startup the program opens no WAL reader and
performs no replay: whatever the journal contains, the store with
which the server begins accepting traffic is the fresh empty store of
`store.NewStore()`. -/
theorem c1_startup_store_empty_amended (records : List (List Str)) :
    startupStore records = Store.newStore := rfl

/-- C2. The claim says `decode(encode(C)) == C` byte-exact for every
command tuple, including strings containing LF bytes.  The code
violates this: the reader tokenizes with `bufio.Scanner` under
`ScanLines`, so the encoded tuple `["SET", "k", "\n"]` — a value that
is a single LF byte — decodes to a bulk-string length-mismatch error
instead of round-tripping (the scanner splits the bulk data at the
embedded LF). -/
theorem c2_lf_bulk_string_fails_roundtrip :
    Wal.parseArray (Wal.encodeArray [SETv, kKey, [10]]) =
      .error .lengthMismatch ∧
    Wal.parseArray (Wal.encodeArray [SETv, kKey, vVal]) =
      .ok ([SETv, kKey, vVal], []) := by
  constructor <;> decide

/-- C3. The claim says an expired `get(k)` removes the entry *and* its
TTL-Set membership.  The code's expired branch of `Store.Get` deletes
the entry from `data` and the LRU list but never touches `withTTL`:
after `SetWithTTL("k","v",5)` at time 0 and `Get("k")` at time 10 the
entry is gone while `"k"` is still a member of the TTL Set, so the
claimed invariant fails. -/
theorem c3_expired_get_keeps_ttl_membership :
    ((Store.newStore.setWithTTL kKey vVal 0 5).get 10 kKey).1 = none ∧
    (((Store.newStore.setWithTTL kKey vVal 0 5).get 10 kKey).2).dataLookup kKey
      = none ∧
    kKey ∈ (((Store.newStore.setWithTTL kKey vVal 0 5).get 10 kKey).2).withTTL := by
  refine ⟨by decide, by decide, by decide⟩

/-- The key `"a{}b"`: first `{` at index 1, immediately followed by
`}`. -/
def emptyTagKey : Str := [97, 123, 125, 98]

/-- C4 (counterexample). The claim says a key whose first `{` is
immediately followed by `}` is hashed in full.  On `"a{}b"` the code
hashes the empty tag instead: `CalculateSlot` returns
`crc32("") % 16384 = 0`, while the full key hashes to slot 3844. -/
theorem c4_empty_hashtag_counterexample :
    emptyTagKey.findIdx? (· = 123) = some 1 ∧
    (emptyTagKey.drop 2).head? = some 125 ∧
    CalculateSlot emptyTagKey = 0 ∧
    crc32 emptyTagKey % SLOT_RANGE = 3844 ∧
    CalculateSlot emptyTagKey ≠ crc32 emptyTagKey % SLOT_RANGE := by
  refine ⟨by decide, by decide, by decide, by decide, by decide⟩

/-- C4 (amended). For every key containing `{` with no `}` after it
the slot hasher hashes the full key, `slot = crc32(key) % 16384`; but
for every key whose first `{` is immediately followed by `}` it hashes
the empty hash tag, yielding slot `crc32("") % 16384 = 0` rather than
the full key's slot. -/
theorem c4_hashtag_amended (key : Str) (s : Nat)
    (h1 : key.findIdx? (· = 123) = some s) :
    ((key.drop (s + 1)).findIdx? (· = 125) = none →
      CalculateSlot key = crc32 key % SLOT_RANGE) ∧
    ((key.drop (s + 1)).head? = some 125 → CalculateSlot key = 0) := by
  constructor
  · intro h2
    simp only [CalculateSlot, hashKeyOf, h1, h2]
  · intro h2
    have h3 : (key.drop (s + 1)).findIdx? (· = 125) = some 0 := by
      rcases hd : key.drop (s + 1) with _ | ⟨x, t⟩
      · simp [hd] at h2
      · rw [hd] at h2
        simp only [List.head?_cons, Option.some.injEq] at h2
        subst h2
        simp [List.findIdx?]
    simp only [CalculateSlot, hashKeyOf, h1, h3, List.take_zero]
    decide

/-- C4 witness: the amended theorem applied to the concrete keys
`"a{b"` (no closing brace: full key hashed) and `"a{}b"` (empty tag:
slot 0). -/
theorem c4_hashtag_amended_witness :
    (([97, 123, 98] : Str).findIdx? (· = 123) = some 1 ∧
      CalculateSlot [97, 123, 98] = crc32 [97, 123, 98] % SLOT_RANGE) ∧
    (emptyTagKey.findIdx? (· = 123) = some 1 ∧ CalculateSlot emptyTagKey = 0) :=
  ⟨⟨by decide, (c4_hashtag_amended [97, 123, 98] 1 (by decide)).1 (by decide)⟩,
   ⟨by decide, (c4_hashtag_amended emptyTagKey 1 (by decide)).2 (by decide)⟩⟩

/-- `cleanupStep` never resurrects a data entry: a key absent from the
data map stays absent. -/
theorem cleanupStep_dataLookup_none {s : Store} {now : Nat} {k k' : Str}
    (h : s.dataLookup k = none) :
    (Store.cleanupStep now s k').dataLookup k = none := by
  unfold Store.cleanupStep
  unfold Store.dataLookup at h ⊢
  split
  · exact h
  · split
    · exact h
    · split
      · simp only
        rw [List.find?_eq_none] at h ⊢
        intro x hx
        exact h x (List.mem_of_mem_filter hx)
      · exact h

/-- `cleanupStep` on a sampled key whose data lookup is nil leaves the
TTL Set untouched for that key: stale memberships survive. -/
theorem cleanupStep_preserves_stale {s : Store} {now : Nat} {k k' : Str}
    (h1 : k ∈ s.withTTL) (h2 : s.dataLookup k = none) :
    k ∈ (Store.cleanupStep now s k').withTTL := by
  unfold Store.cleanupStep
  split
  · exact h1
  · next item hf =>
    split
    · exact h1
    · split
      · simp only
        have hkk : k ≠ k' := by
          intro he
          subst he
          unfold Store.dataLookup at h2
          rw [hf] at h2
          exact Option.noConfusion h2
        unfold Store.ttlErase
        exact List.mem_filter.mpr ⟨h1, by simpa using hkk⟩
      · exact h1

/-- C10. A key that is a member of the TTL Set but has no entry in the
data map is never removed from the TTL Set by the active-expiration
loop: every cleanup pass, whatever keys it samples and whatever the
current time, skips a nil data lookup without deleting the TTL-Set
membership, so the stale membership is preserved. -/
theorem c10_cleanup_preserves_stale_ttl (s : Store) (now : Nat)
    (samples : List Str) (k : Str) (h1 : k ∈ s.withTTL)
    (h2 : s.dataLookup k = none) :
    k ∈ (s.cleanupPass now samples).withTTL := by
  induction samples generalizing s with
  | nil => exact h1
  | cons k' rest ih =>
    unfold Store.cleanupPass at ih ⊢
    simp only [List.foldl_cons]
    exact ih _ (cleanupStep_preserves_stale h1 h2)
      (cleanupStep_dataLookup_none h2)

/-- C10 witness: the stale state left behind by an expired `Get` (the
C3 slip) persists through a cleanup pass that samples the stale key
twice. -/
theorem c10_cleanup_preserves_stale_ttl_witness :
    kKey ∈ (((Store.newStore.setWithTTL kKey vVal 0 5).get 10 kKey).2).withTTL ∧
    (((Store.newStore.setWithTTL kKey vVal 0 5).get 10 kKey).2).dataLookup kKey
      = none ∧
    kKey ∈ ((((Store.newStore.setWithTTL kKey vVal 0 5).get 10 kKey).2).cleanupPass
      20 [kKey, kKey]).withTTL :=
  ⟨by decide, by decide,
   c10_cleanup_preserves_stale_ttl _ 20 [kKey, kKey] kKey (by decide) (by decide)⟩

/-- C6. When the WAL append fails during a SET or DEL of correct
arity, the handler surfaces the error to the caller and nothing else
happens: the whole server state — store, cluster manager, WAL record
list — is unchanged and no broadcast is produced. -/
theorem c6_wal_error_aborts_mutation (st : SrvState) (partsS partsD : List Str)
    (hS : partsS.length = 3) (hD : partsD.length = 2) :
    handleSetCommand st false partsS =
      (st, [], [.err "failed to write to WAL"]) ∧
    handleDeleteCommand st false partsD =
      (st, [], [.err "failed to write to WAL"]) := by
  constructor
  · simp [handleSetCommand, handleSet, hS]
  · simp [handleDeleteCommand, handleDelete, hD]

/-- C6 witness: a WAL failure on `SET k v` and on `DEL k` against the
fresh server state. -/
theorem c6_wal_error_aborts_mutation_witness :
    ([SETv, kKey, vVal].length = 3 ∧ [DELv, kKey].length = 2) ∧
    (handleSetCommand ⟨Store.newStore, none, [], 0⟩ false [SETv, kKey, vVal] =
       (⟨Store.newStore, none, [], 0⟩, [], [.err "failed to write to WAL"]) ∧
     handleDeleteCommand ⟨Store.newStore, none, [], 0⟩ false [DELv, kKey] =
       (⟨Store.newStore, none, [], 0⟩, [], [.err "failed to write to WAL"])) :=
  ⟨⟨by decide, by decide⟩,
   c6_wal_error_aborts_mutation ⟨Store.newStore, none, [], 0⟩
     [SETv, kKey, vVal] [DELv, kKey] (by decide) (by decide)⟩

/-- C5. A key-bearing command (SET, GET or DEL) arriving while the
cluster has at least 3 registered nodes, whose key's slot lies outside
the self node's assigned range, is answered with exactly one MOVED
reply carrying the slot and the owning node's host and port, and the
server state is untouched: no WAL append, no store mutation, no
broadcast.  (The key must be a non-empty token, which is all the line
parser can produce.) -/
theorem c5_moved_redirect_no_side_effects (st : SrvState) (m : Manager)
    (walOk : Bool) (freshId : Str) (cmd : Str) (parts : List Str)
    (hcm : st.cm = some m)
    (hn : 3 ≤ m.nodes.length)
    (hcmd : cmd = SETv ∨ cmd = GETv ∨ cmd = DELv)
    (hp : 2 ≤ parts.length)
    (hne : parts.getD 1 [] ≠ [])
    (hout : (CalculateSlot (parts.getD 1 []) : Int) < m.self.slot.start ∨
            (CalculateSlot (parts.getD 1 []) : Int) > m.self.slot.stop) :
    handleCommand st walOk freshId cmd parts =
      (st, [],
       [Reply.moved (CalculateSlot (parts.getD 1 []))
          (m.getNodeForSlots (CalculateSlot (parts.getD 1 []))).host
          (m.getNodeForSlots (CalculateSlot (parts.getD 1 []))).port]) := by
  have hkb : isKeyBasedCommand cmd = true := by
    rcases hcmd with h | h | h <;> simp [isKeyBasedCommand, h]
  have hown : checkSlotOwnership st (parts.getD 1 []) = parts.getD 1 [] := by
    unfold checkSlotOwnership
    rw [hcm]
    simp only
    rw [if_neg (by omega), if_pos hout]
  unfold handleCommand
  rw [if_pos ⟨hkb, hp⟩]
  simp only [hown, if_pos hne]
  unfold handleRedirect
  rw [hcm]

/-- A concrete 3-node, initialized cluster used by witnesses: self is
the node owning `[0,5460]`. -/
def witnessCluster : Manager :=
  let n1 : Node := ⟨[97], [104,49], [112,49], ⟨0, 5460⟩, 0, 0⟩
  let n2 : Node := ⟨[98], [104,50], [112,50], ⟨5461, 10921⟩, 0, 0⟩
  let n3 : Node := ⟨[99], [104,51], [112,51], ⟨10922, 16383⟩, 0, 0⟩
  { nodes := [n1, n2, n3], self := n1 }

/-- C5 witness: `GET a` on the `[0,5460]` node; the key `"a"` hashes
to slot 15939, owned by the third node, so the command is redirected
there with no state change. -/
theorem c5_moved_redirect_no_side_effects_witness :
    ((⟨Store.newStore, some witnessCluster, [], 0⟩ : SrvState).cm =
       some witnessCluster ∧
     3 ≤ witnessCluster.nodes.length ∧
     ([GETv, [97]] : List Str).getD 1 [] ≠ [] ∧
     (CalculateSlot (([GETv, [97]] : List Str).getD 1 []) : Int) >
       witnessCluster.self.slot.stop) ∧
    handleCommand ⟨Store.newStore, some witnessCluster, [], 0⟩ true [] GETv
        [GETv, [97]] =
      (⟨Store.newStore, some witnessCluster, [], 0⟩, [],
       [Reply.moved (CalculateSlot (([GETv, [97]] : List Str).getD 1 []))
          (witnessCluster.getNodeForSlots
            (CalculateSlot (([GETv, [97]] : List Str).getD 1 []))).host
          (witnessCluster.getNodeForSlots
            (CalculateSlot (([GETv, [97]] : List Str).getD 1 []))).port]) :=
  ⟨⟨rfl, by decide, by decide, by decide⟩,
   c5_moved_redirect_no_side_effects _ witnessCluster true [] GETv [GETv, [97]]
     rfl (by decide) (Or.inr (Or.inl rfl)) (by decide) (by decide)
     (Or.inr (by decide))⟩

/-- C7. A `set(k, v)` of a brand-new key on a store holding exactly
`max_size ≥ 1` entries inserts the new entry at the LRU front and then
evicts exactly one entry — the old LRU tail — so the new key is never
its own eviction victim and the store again holds exactly `max_size`
entries. -/
theorem c7_insert_then_evict_tail (s : Store) (k v : Str)
    (hfull : s.lruList.length = s.maxSize)
    (hpos : 1 ≤ s.maxSize)
    (hnew : k ∉ s.keys) :
    ∃ victim,
      s.lruList.getLast? = some victim ∧
      (s.set k v).lruList = ⟨k, v, none⟩ :: s.lruList.dropLast ∧
      victim.key ≠ k ∧
      (s.set k v).lruList.length = s.maxSize := by
  have hmem : ∀ it ∈ s.lruList, it.key ≠ k := by
    intro it hit he
    exact hnew (he ▸ List.mem_map_of_mem _ hit)
  have hfind : s.lruList.find? (fun it => it.key = k) = none := by
    rw [List.find?_eq_none]
    intro x hx
    simpa using hmem x hx
  rcases hl : s.lruList with _ | ⟨x, xs⟩
  · rw [hl] at hfull
    simp at hfull
    omega
  · have hcne : (x :: xs) ≠ [] := by simp
    have hlast : (x :: xs).getLast? = some ((x :: xs).getLast hcne) :=
      List.getLast?_eq_getLast _ hcne
    have hset : s.set k v =
        { lruList := ⟨k, v, none⟩ :: (x :: xs).dropLast
          withTTL := Store.ttlErase s.withTTL ((x :: xs).getLast hcne).key
          maxSize := s.maxSize } := by
      unfold Store.set Store.setInternal
      rw [hfind]
      simp only [Option.isSome_none, Bool.false_eq_true, if_false]
      rw [if_pos (by simp only [List.length_cons, hfull]; omega)]
      unfold Store.evictLRU
      simp only [hl, List.getLast?_cons_cons, hlast]
      simp [List.dropLast_cons₂]
    refine ⟨(x :: xs).getLast hcne, hlast, ?_, ?_, ?_⟩
    · rw [hset]
    · exact fun he => hmem _ (by rw [hl]; exact List.getLast_mem hcne) he
    · rw [hset]
      simp only [List.length_cons, List.length_dropLast]
      rw [hl] at hfull
      simp only [List.length_cons] at hfull ⊢
      omega

/-- C7 witness: a one-entry store at capacity 1; setting a new key
keeps the size at 1 and evicts the old tail, not the new key. -/
theorem c7_insert_then_evict_tail_witness :
    (({ lruList := [⟨[97], vVal, none⟩], withTTL := [], maxSize := 1 } :
        Store).lruList.length = 1 ∧
     kKey ∉ ({ lruList := [⟨[97], vVal, none⟩], withTTL := [], maxSize := 1 } :
        Store).keys) ∧
    ∃ victim,
      ({ lruList := [⟨[97], vVal, none⟩], withTTL := [], maxSize := 1 } :
        Store).lruList.getLast? = some victim ∧
      (({ lruList := [⟨[97], vVal, none⟩], withTTL := [], maxSize := 1 } :
        Store).set kKey vVal).lruList =
        ⟨kKey, vVal, none⟩ ::
          ({ lruList := [⟨[97], vVal, none⟩], withTTL := [], maxSize := 1 } :
            Store).lruList.dropLast ∧
      victim.key ≠ kKey ∧
      (({ lruList := [⟨[97], vVal, none⟩], withTTL := [], maxSize := 1 } :
        Store).set kKey vVal).lruList.length = 1 :=
  ⟨⟨by decide, by decide⟩,
   c7_insert_then_evict_tail _ kKey vVal (by decide) (by decide) (by decide)⟩

/-- `assignNode` never changes a node's identity (only its slot). -/
theorem assignNode_id (sids : List Str) (n : Node) :
    (Manager.assignNode sids n).id = n.id := by
  unfold Manager.assignNode
  split <;> rfl

/-- If some node of `l` carries id `X`, then `find?` by id succeeds and
the hit carries id `X`. -/
theorem find?_node_of_mem_ids {l : List Node} {X : Str}
    (hX : X ∈ l.map (·.id)) :
    ∃ nX ∈ l, l.find? (fun n => n.id = X) = some nX ∧ nX.id = X := by
  have hs : (l.find? (fun n => n.id = X)).isSome := by
    rw [List.find?_isSome]
    obtain ⟨n, hn, he⟩ := List.mem_map.mp hX
    exact ⟨n, hn, by simp [he]⟩
  obtain ⟨nX, hnX⟩ := Option.isSome_iff_exists.mp hs
  exact ⟨nX, List.mem_of_find?_eq_some hnX, hnX, by simpa using List.find?_some hnX⟩

/-- C8. After `InitializeCluster` on a registry of exactly 3 nodes
(with distinct ids, as map keys are), the slots assigned in
lexicographically-sorted id order are exactly `[0,5460]`,
`[5461,10921]`, `[10922,16383]` — contiguous; the assigned ranges are
pairwise disjoint; and their union is exactly `[0, 16384)`. -/
theorem c8_three_node_slot_partition (m : Manager)
    (h3 : m.nodes.length = 3)
    (hnd : (m.nodes.map (·.id)).Nodup) :
    ((m.nodes.map (·.id)).insertionSort (· ≤ ·)).map
        (fun id =>
          ((m.initializeCluster).nodes.find? (fun n => n.id = id)).map (·.slot)) =
      [some ⟨0, 5460⟩, some ⟨5461, 10921⟩, some ⟨10922, 16383⟩] ∧
    ((m.initializeCluster).nodes.map (·.slot)).Pairwise
      (fun r₁ r₂ => ∀ s : Int, r₁.start ≤ s → s ≤ r₁.stop →
        ¬(r₂.start ≤ s ∧ s ≤ r₂.stop)) ∧
    (∀ s : Int, (0 ≤ s ∧ s < 16384) ↔
      ∃ n ∈ (m.initializeCluster).nodes,
        n.slot.start ≤ s ∧ s ≤ n.slot.stop) := by
  have hlen : (m.nodes.map (·.id)).length = 3 := by simp [h3]
  have hperm := List.perm_insertionSort (· ≤ ·) (m.nodes.map (·.id))
  have hslen : ((m.nodes.map (·.id)).insertionSort (· ≤ ·)).length = 3 :=
    hperm.length_eq.trans hlen
  obtain ⟨a, b, c, habc⟩ := List.length_eq_three.mp hslen
  rw [habc] at hperm
  have hsnd : ([a, b, c] : List Str).Nodup := hperm.nodup_iff.mpr hnd
  have hab : a ≠ b := by simp [List.nodup_cons] at hsnd; tauto
  have hac : a ≠ c := by simp [List.nodup_cons] at hsnd; tauto
  have hbc : b ≠ c := by simp [List.nodup_cons] at hsnd; tauto
  have hia : ([a, b, c] : List Str).findIdx? (· = a) = some 0 := by
    simp [List.findIdx?_cons]
  have hib : ([a, b, c] : List Str).findIdx? (· = b) = some 1 := by
    simp [List.findIdx?_cons, hab]
  have hic : ([a, b, c] : List Str).findIdx? (· = c) = some 2 := by
    simp [List.findIdx?_cons, hac, hbc]
  have hr0 : Manager.assignedSlot 0 3 = ⟨0, 5460⟩ := by decide
  have hr1 : Manager.assignedSlot 1 3 = ⟨5461, 10921⟩ := by decide
  have hr2 : Manager.assignedSlot 2 3 = ⟨10922, 16383⟩ := by decide
  have hXa : a ∈ m.nodes.map (·.id) := hperm.subset (by simp)
  have hXb : b ∈ m.nodes.map (·.id) := hperm.subset (by simp)
  have hXc : c ∈ m.nodes.map (·.id) := hperm.subset (by simp)
  have hmn : (m.initializeCluster).nodes =
      m.nodes.map (Manager.assignNode [a, b, c]) := by
    unfold Manager.initializeCluster
    rw [habc]
  have hfind : ∀ (X : Str) (i : Nat) (r : Slot),
      ([a, b, c] : List Str).findIdx? (· = X) = some i →
      Manager.assignedSlot i 3 = r →
      X ∈ m.nodes.map (·.id) →
      ((m.nodes.map (Manager.assignNode [a, b, c])).find?
        (fun n => n.id = X)).map (·.slot) = some r := by
    intro X i r hidx hr hX
    rw [List.find?_map]
    obtain ⟨nX, hmemX, hfX, hidX⟩ := find?_node_of_mem_ids hX
    have hpe : (fun n => decide (n.id = X)) ∘ Manager.assignNode [a, b, c] =
        fun n => decide (n.id = X) := by
      funext n
      simp [Function.comp, assignNode_id]
    have hassign : Manager.assignNode [a, b, c] nX = { nX with slot := r } := by
      unfold Manager.assignNode
      rw [hidX, hidx]
      simp [hr]
    rw [hpe, hfX]
    simp [hassign]
  rw [habc, hmn]
  have hslots : List.Perm
      ((m.nodes.map (Manager.assignNode [a, b, c])).map (·.slot))
      ([⟨0, 5460⟩, ⟨5461, 10921⟩, ⟨10922, 16383⟩] : List Slot) := by
    have h1 : (m.nodes.map (Manager.assignNode [a, b, c])).map (·.slot) =
        (m.nodes.map (·.id)).map (fun X =>
          match ([a, b, c] : List Str).findIdx? (· = X) with
          | none => (⟨-1, -1⟩ : Slot)
          | some i => Manager.assignedSlot i 3) := by
      rw [List.map_map, List.map_map]
      apply List.map_congr_left
      intro n hn
      have hidmem : n.id ∈ ([a, b, c] : List Str) :=
        hperm.mem_iff.mpr (List.mem_map_of_mem _ hn)
      rcases hfi : ([a, b, c] : List Str).findIdx? (· = n.id) with _ | i
      · exfalso
        have := List.findIdx?_eq_none_iff.mp hfi n.id hidmem
        simp at this
      · simp only [Function.comp]
        unfold Manager.assignNode
        rw [hfi]
        simp
    rw [h1]
    have h2 := (hperm.symm.map (fun X =>
      match ([a, b, c] : List Str).findIdx? (· = X) with
      | none => (⟨-1, -1⟩ : Slot)
      | some i => Manager.assignedSlot i 3))
    refine h2.trans ?_
    simp only [List.map_cons, List.map_nil, hia, hib, hic, hr0, hr1, hr2]
    exact List.Perm.refl _
  refine ⟨?_, ?_, ?_⟩
  · simp only [List.map_cons, List.map_nil]
    rw [hfind a 0 ⟨0, 5460⟩ hia hr0 hXa, hfind b 1 ⟨5461, 10921⟩ hib hr1 hXb,
        hfind c 2 ⟨10922, 16383⟩ hic hr2 hXc]
  · refine (hslots.pairwise_iff ?_).mpr ?_
    · intro x y h s hs1 hs2 hs3
      exact h s hs3.1 hs3.2 ⟨hs1, hs2⟩
    · refine List.Pairwise.cons ?_ (List.Pairwise.cons ?_
        (List.Pairwise.cons ?_ List.Pairwise.nil))
      · intro r hr s h1 h2 h3
        simp only [List.mem_cons, List.not_mem_nil, or_false] at hr
        simp only at h1 h2
        rcases hr with rfl | rfl <;> simp only at h3 <;> omega
      · intro r hr s h1 h2 h3
        simp only [List.mem_cons, List.not_mem_nil, or_false] at hr
        simp only at h1 h2
        rcases hr with rfl
        simp only at h3
        omega
      · intro r hr
        simp at hr
  · intro s
    constructor
    · rintro ⟨hs0, hs1⟩
      by_cases h1 : s ≤ 5460
      · obtain ⟨na, hna, hfa, hida⟩ := find?_node_of_mem_ids hXa
        have hasg : Manager.assignNode [a, b, c] na =
            { na with slot := ⟨0, 5460⟩ } := by
          unfold Manager.assignNode
          rw [hida, hia]
          simp [hr0]
        refine ⟨Manager.assignNode [a, b, c] na,
          List.mem_map_of_mem _ hna, ?_⟩
        rw [hasg]
        show (0 : Int) ≤ s ∧ s ≤ 5460
        omega
      · by_cases h2 : s ≤ 10921
        · obtain ⟨nb, hnb, hfb, hidb⟩ := find?_node_of_mem_ids hXb
          have hasg : Manager.assignNode [a, b, c] nb =
              { nb with slot := ⟨5461, 10921⟩ } := by
            unfold Manager.assignNode
            rw [hidb, hib]
            simp [hr1]
          refine ⟨Manager.assignNode [a, b, c] nb,
            List.mem_map_of_mem _ hnb, ?_⟩
          rw [hasg]
          show (5461 : Int) ≤ s ∧ s ≤ 10921
          omega
        · obtain ⟨nc, hnc, hfc, hidc⟩ := find?_node_of_mem_ids hXc
          have hasg : Manager.assignNode [a, b, c] nc =
              { nc with slot := ⟨10922, 16383⟩ } := by
            unfold Manager.assignNode
            rw [hidc, hic]
            simp [hr2]
          refine ⟨Manager.assignNode [a, b, c] nc,
            List.mem_map_of_mem _ hnc, ?_⟩
          rw [hasg]
          show (10922 : Int) ≤ s ∧ s ≤ 16383
          omega
    · rintro ⟨n', hn', hcon⟩
      obtain ⟨n, hn, rfl⟩ := List.mem_map.mp hn'
      have hidmem : n.id ∈ ([a, b, c] : List Str) :=
        hperm.mem_iff.mpr (List.mem_map_of_mem _ hn)
      unfold Manager.assignNode at hcon
      rcases List.mem_cons.mp hidmem with h | h'
      · rw [h, hia] at hcon
        simp only [hr0] at hcon
        have := hcon.1
        have := hcon.2
        simp_all
        omega
      · rcases List.mem_cons.mp h' with h | h''
        · rw [h, hib] at hcon
          simp only [hr1] at hcon
          simp_all
          omega
        · have h : n.id = c := by simpa using h''
          rw [h, hic] at hcon
          simp only [hr2] at hcon
          simp_all
          omega

/-- A concrete 3-node registry (distinct ids `"b"`, `"a"`, `"c"`) used
as the C8 witness. -/
def c8Registry : Manager :=
  { nodes :=
      [⟨[98], [104,49], [112,49], ⟨-1, -1⟩, 0, 0⟩,
       ⟨[97], [104,50], [112,50], ⟨-1, -1⟩, 0, 0⟩,
       ⟨[99], [104,51], [112,51], ⟨-1, -1⟩, 0, 0⟩],
    self := ⟨[98], [104,49], [112,49], ⟨-1, -1⟩, 0, 0⟩ }

/-- C8 witness: the partition theorem applied to a concrete 3-node
registry. -/
theorem c8_three_node_slot_partition_witness :
    (c8Registry.nodes.length = 3 ∧ (c8Registry.nodes.map (·.id)).Nodup) ∧
    (((c8Registry.nodes.map (·.id)).insertionSort (· ≤ ·)).map
        (fun id =>
          ((c8Registry.initializeCluster).nodes.find?
            (fun n => n.id = id)).map (·.slot)) =
      [some ⟨0, 5460⟩, some ⟨5461, 10921⟩, some ⟨10922, 16383⟩] ∧
    ((c8Registry.initializeCluster).nodes.map (·.slot)).Pairwise
      (fun r₁ r₂ => ∀ s : Int, r₁.start ≤ s → s ≤ r₁.stop →
        ¬(r₂.start ≤ s ∧ s ≤ r₂.stop)) ∧
    (∀ s : Int, (0 ≤ s ∧ s < 16384) ↔
      ∃ n ∈ (c8Registry.initializeCluster).nodes,
        n.slot.start ≤ s ∧ s ≤ n.slot.stop)) :=
  ⟨⟨by decide, by decide⟩,
   c8_three_node_slot_partition c8Registry (by decide) (by decide)⟩

/-- On a strictly sorted key list, dropping
`len(takeWhile (< x)) + 1` elements (the pagination start index
`sort.SearchStrings(A, x) + 1`) yields all keys strictly greater than
the cursor when the cursor is present, and all but the first such key
when it is absent. -/
theorem drop_searchStrings_sorted (A : List Str) (x : Str)
    (hs : A.Sorted (· < ·)) :
    A.drop ((A.takeWhile (fun k => k < x)).length + 1) =
      if x ∈ A then A.filter (fun k => x < k)
      else (A.filter (fun k => x < k)).drop 1 := by
  induction A with
  | nil => simp
  | cons a A' ih =>
    rw [List.sorted_cons] at hs
    obtain ⟨ha, hs'⟩ := hs
    by_cases hax : a < x
    · have h1 : ((a :: A').takeWhile (fun k => k < x)).length + 1 =
          ((A'.takeWhile (fun k => k < x)).length + 1) + 1 := by
        simp [List.takeWhile_cons, hax]
      rw [h1, List.drop_succ_cons]
      have hxmem : (x ∈ a :: A') ↔ (x ∈ A') := by
        constructor
        · intro hm
          rcases List.mem_cons.mp hm with rfl | h
          · exact absurd hax (lt_irrefl x)
          · exact h
        · exact List.mem_cons_of_mem _
      have hqa : ¬ x < a := asymm hax
      have hfil : (a :: A').filter (fun k => x < k) =
          A'.filter (fun k => x < k) := by
        simp [List.filter_cons, hqa]
      rw [if_congr hxmem rfl rfl, hfil]
      exact ih hs'
    · have h0 : ((a :: A').takeWhile (fun k => k < x)).length + 1 = 0 + 1 := by
        simp [List.takeWhile_cons, hax]
      rw [h0, List.drop_succ_cons, List.drop_zero]
      by_cases hxa : x = a
      · subst hxa
        rw [if_pos (List.mem_cons_self x A')]
        have : (x :: A').filter (fun k => x < k) = A' := by
          rw [List.filter_cons_of_neg (by simp)]
          exact List.filter_eq_self.mpr (fun b hb => by simpa using ha b hb)
        rw [this]
      · have hxlta : x < a := lt_of_le_of_ne (le_of_not_lt hax) hxa
        have hnm : x ∉ a :: A' := by
          intro hm
          rcases List.mem_cons.mp hm with rfl | h
          · exact hxa rfl
          · exact absurd (ha x h) (asymm hxlta)
        rw [if_neg hnm]
        have : (a :: A').filter (fun k => x < k) = a :: A' := by
          rw [List.filter_cons_of_pos (by simpa using hxlta)]
          congr 1
          exact List.filter_eq_self.mpr
            (fun b hb => by simpa using lt_trans hxlta (ha b hb))
        rw [this, List.drop_succ_cons, List.drop_zero]

/-- The two-key store `{"a": "1", "c": "2"}` used by the C9
counterexample and witness. -/
def c9Store : Store := (Store.newStore.set [97] [49]).set [99] [50]

/-- C9 (counterexample). The claim says the page begins with the first
stored key strictly greater than the cursor even when the cursor is
not itself stored.  With stored keys `"a"` and `"c"` and the absent
cursor `"b"`, the first stored key greater than the cursor is `"c"`,
but the code returns an empty page: `sort.SearchStrings` already
points at `"c"` and the unconditional `cidx++` skips it. -/
theorem c9_absent_cursor_counterexample :
    ((c9Store.getAllKeys).filter (fun k => [98] < k)).head? = some [99] ∧
    (handleCursorPagination c9Store [98] 2).keys = [] := by
  refine ⟨by decide, by decide⟩

/-- C9 (amended). For a store with duplicate-free keys and a non-empty
cursor: when the cursor is itself among the stored keys, the page is
the first `limit` keys strictly greater than it (so it begins with the
first such key); when the cursor is absent, the code skips the first
strictly-greater key and the page begins with the second one. -/
theorem c9_pagination_amended (s : Store) (cursor : Str) (limit : Nat)
    (hc : cursor ≠ [])
    (hnd : (s.keys).Nodup) :
    (handleCursorPagination s cursor limit).keys =
      (if cursor ∈ s.getAllKeys then
         (s.getAllKeys).filter (fun k => cursor < k)
       else ((s.getAllKeys).filter (fun k => cursor < k)).drop 1).take limit := by
  have hsle : (s.getAllKeys).Sorted (· ≤ ·) := List.sorted_insertionSort _ _
  have hndA : (s.getAllKeys).Nodup :=
    ((List.perm_insertionSort _ _).nodup_iff).mpr hnd
  have hslt : (s.getAllKeys).Sorted (· < ·) := hsle.lt_of_le hndA
  have hres : (handleCursorPagination s cursor limit).keys =
      ((s.getAllKeys).drop
        ((s.getAllKeys).takeWhile (fun k => k < cursor)).length.succ).take limit := by
    unfold handleCursorPagination searchStrings
    rw [hsle.insertionSort_eq]
    simp [hc]
  rw [hres]
  congr 1
  exact drop_searchStrings_sorted _ _ hslt

/-- C9 witness: the amended theorem at the concrete store
`{"a":"1","c":"2"}` with the present cursor `"a"` and limit 2. -/
theorem c9_pagination_amended_witness :
    (([97] : Str) ≠ [] ∧ (c9Store.keys).Nodup) ∧
    (handleCursorPagination c9Store [97] 2).keys =
      (if ([97] : Str) ∈ c9Store.getAllKeys then
         (c9Store.getAllKeys).filter (fun k => [97] < k)
       else ((c9Store.getAllKeys).filter (fun k => [97] < k)).drop 1).take 2 :=
  ⟨⟨by decide, by decide⟩,
   c9_pagination_amended c9Store [97] 2 (by decide) (by decide)⟩

end Reredis
